import Mathlib

/-!
Shallow embedding of `datajoint/relation.py` (class `Relation`): insert,
iter_insert/batch_insert, delete/delete_quick, drop/drop_quick,
descendants, the lazy `heading` property and `size_on_disk`.

External collaborators (connection, blob codec `pack`, Python `repr`,
the ERD dependency graph, `config['safemode']`, `user_choice`) are
modelled as parameters; the effect of a call is rendered as the list of
SQL query strings (or structured queries) it executes.
-/

namespace DataJoint

/-- A Python value as `insert` consumes it: `reprStr` is the literal SQL
text produced by Python `repr(value)`; `packed` is the payload produced
by the external blob codec `pack(value)`. -/
structure Value where
  reprStr : String
  packed : List Nat
deriving DecidableEq, Repr

/-- One attribute descriptor of a `Heading` (name and blob flag are the
only parts `insert` consults). -/
structure Attribute where
  name : String
  is_blob : Bool
deriving DecidableEq, Repr

/-- A `Heading` is an ordered mapping from attribute name to descriptor;
iteration order is the list order. -/
abbrev Heading := List Attribute

/-- Python `name in heading` (membership in the Heading mapping). -/
def headingContains (heading : Heading) (name : String) : Bool :=
  heading.any (fun a => a.name == name)

/-- Python `name in tup` / `name in tup.dtype.fields`: key membership in
the input record. -/
def containsKey (fields : List (String × Value)) (name : String) : Bool :=
  fields.any (fun p => p.fst == name)

/-- Python `tup[name]`: key lookup in the input record (first match;
the default branch is unreachable when guarded by `containsKey`). -/
def lookupField (fields : List (String × Value)) (name : String) : Value :=
  match fields.find? (fun p => p.fst == name) with
  | some p => p.snd
  | none => ⟨"", []⟩

/-- The two exception kinds `insert` can raise:
`KeyError('... is not in the attribute list')` for an unknown field, and
`DataJointError('Datatype ... cannot be inserted')` for an unsupported
input type. -/
inductive DJErrorKind where
  | keyError (msg : String)
  | dataJointError (msg : String)
deriving DecidableEq, Repr

/-- One executed SQL statement: its text and the positional parameters
(`args`, the pack-encoded blob payloads). -/
structure Query where
  sql : String
  args : List (List Nat)
deriving DecidableEq, Repr

/-- `Relation.full_table_name`: ``​`database`.`table_name`​``. -/
def full_table_name (database table_name : String) : String :=
  "`" ++ database ++ "`.`" ++ table_name ++ "`"

/-- `Relation.from_clause` returns `full_table_name`. -/
def from_clause (database table_name : String) : String :=
  full_table_name database table_name

/-- The attributes iterated from the Heading restricted to the fields
present in the input: `for name in heading if name in tup`. -/
def presentAttrs (heading : Heading) (fields : List (String × Value)) : List Attribute :=
  heading.filter (fun a => containsKey fields a.name)

/-- `value_list = ','.join(repr(tup[name]) if not heading[name].is_blob
else '%s' for name in heading if name in tup)`. -/
def value_list (heading : Heading) (fields : List (String × Value)) : String :=
  String.intercalate "," ((presentAttrs heading fields).map
    (fun a => if !a.is_blob then (lookupField fields a.name).reprStr else "%s"))

/-- `args = tuple(pack(tup[name]) for name in heading if name in tup and
heading[name].is_blob)`. -/
def insert_args (heading : Heading) (fields : List (String × Value)) : List (List Nat) :=
  (heading.filter (fun a => containsKey fields a.name && a.is_blob)).map
    (fun a => (lookupField fields a.name).packed)

/-- ``attribute_list = '`' + '`,`'.join(name for name in heading if name
in tup) + '`'``. -/
def attribute_list (heading : Heading) (fields : List (String × Value)) : String :=
  "`" ++ String.intercalate "`,`" ((presentAttrs heading fields).map (fun a => a.name)) ++ "`"

/-- The statement verb: `'REPLACE' if replace else ('INSERT IGNORE' if
ignore_errors else 'INSERT')`. -/
def insertVerb (ignore_errors replace : Bool) : String :=
  if replace then "REPLACE"
  else if ignore_errors then "INSERT IGNORE"
  else "INSERT"

/-- `sql += " INTO %s (%s) VALUES (%s)" % (from_clause, attribute_list,
value_list)` appended to the verb. -/
def insertSQL (fc : String) (heading : Heading) (fields : List (String × Value))
    (ignore_errors replace : Bool) : String :=
  insertVerb ignore_errors replace ++ " INTO " ++ fc ++ " (" ++
    attribute_list heading fields ++ ") VALUES (" ++ value_list heading fields ++ ")"

/-- The validation loop: the first input field name absent from the
Heading, if any (`for fieldname in ...: if fieldname not in heading:
raise KeyError(...)`). -/
def findUnknown (heading : Heading) (fieldNames : List String) : Option String :=
  fieldNames.find? (fun f => !(headingContains heading f))

/-- The input accepted by `Relation.insert`: a numpy structured row
(`np.void`), a `Mapping`, or anything else (rejected). -/
inductive InsertRecord where
  | npvoid (fields : List (String × Value))
  | mapping (fields : List (String × Value))
  | other (typeName : String)
deriving DecidableEq, Repr

/-- The shared body of the `np.void` and `Mapping` branches of
`Relation.insert`: validate every field name against the Heading, then
build the single statement and its blob arguments. -/
def insertRow (fc : String) (heading : Heading) (fields : List (String × Value))
    (ignore_errors replace : Bool) : Except DJErrorKind Query :=
  match findUnknown heading (fields.map Prod.fst) with
  | some f => .error (.keyError (f ++ " is not in the attribute list"))
  | none => .ok ⟨insertSQL fc heading fields ignore_errors replace,
                 insert_args heading fields⟩

/-- `Relation.insert(tup, ignore_errors=False, replace=False)`:
dispatch on the input type, validate, build and execute one statement
(the executed statement is the `.ok` payload; a raise is `.error`). -/
def insert (fc : String) (heading : Heading) (tup : InsertRecord)
    (ignore_errors replace : Bool) : Except DJErrorKind Query :=
  match tup with
  | .npvoid fields => insertRow fc heading fields ignore_errors replace
  | .mapping fields => insertRow fc heading fields ignore_errors replace
  | .other typeName => .error (.dataJointError ("Datatype " ++ typeName ++ " cannot be inserted"))

/-- The statements a single `insert` call hands to
`self.connection.query`: one on success, none when it raises. -/
def insertExecuted (fc : String) (heading : Heading) (tup : InsertRecord)
    (ignore_errors replace : Bool) : List Query :=
  match insert fc heading tup ignore_errors replace with
  | .ok q => [q]
  | .error _ => []

/-- The query of a successful insert (default never reached under an
all-succeed hypothesis). -/
def okQuery (r : Except DJErrorKind Query) : Query :=
  match r with
  | .ok q => q
  | .error _ => ⟨"", []⟩

/-- `Relation.iter_insert(rows, **kwargs)`: `for row in rows:
self.insert(row, **kwargs)`. Returns the statements executed in order
and the exception that aborted the loop, if any. -/
def iter_insert (fc : String) (heading : Heading) (rows : List InsertRecord)
    (ignore_errors replace : Bool) : List Query × Option DJErrorKind :=
  match rows with
  | [] => ([], none)
  | row :: rest =>
    match insert fc heading row ignore_errors replace with
    | .error e => ([], some e)
    | .ok q =>
      let r := iter_insert fc heading rest ignore_errors replace
      (q :: r.fst, r.snd)

/-- `Relation.batch_insert(data, **kwargs)`:
`self.iter_insert(data.__iter__(), **kwargs)`. -/
def batch_insert (fc : String) (heading : Heading) (data : List InsertRecord)
    (ignore_errors replace : Bool) : List Query × Option DJErrorKind :=
  iter_insert fc heading data ignore_errors replace

/-- `Relation.delete_quick()`: one unconditional
`DELETE FROM <from_clause><where_clause>` statement. -/
def delete_quick (fc where_clause : String) : List String :=
  ["DELETE FROM " ++ fc ++ where_clause]

/-- Result of a `delete()` call: the statements executed and whether the
interactive confirmation prompt was consulted. -/
structure DeleteCall where
  queries : List String
  prompted : Bool
deriving DecidableEq, Repr

/-- `Relation.delete()`: `if not config['safemode'] or user_choice(...)
== 'yes': self.delete_quick()`; the short-circuit `or` skips the prompt
entirely when safe-mode is off. -/
def delete (safemode : Bool) (choice : String) (fc where_clause : String) : DeleteCall :=
  if !safemode then ⟨delete_quick fc where_clause, false⟩
  else if choice == "yes" then ⟨delete_quick fc where_clause, true⟩
  else ⟨[], true⟩

/-- `Relation.descendants`: the ERD's `get_descendants` list wrapped as
relations, keeping only those currently declared. -/
def descendants (erdDescendants : List String) (is_declared : String → Bool) : List String :=
  erdDescendants.filter is_declared

/-- The loop `while relations: relations.pop().drop_quick()` — repeatedly
pops the LAST element; returns the tables in the order `drop_quick` is
invoked on them. -/
def dropLoop (relations : List String) : List String :=
  match relations with
  | [] => []
  | r :: rs => (r :: rs).getLast (List.cons_ne_nil r rs) :: dropLoop ((r :: rs).dropLast)
termination_by relations.length
decreasing_by simp

/-- `Relation.drop()`: compute the declared descendants, confirm when
safe-mode is on (`do_drop = user_choice("Proceed?") == 'yes'`), then run
the pop-from-the-end loop. Returns the tables passed to `drop_quick`, in
invocation order. -/
def drop (erdDescendants : List String) (is_declared : String → Bool)
    (safemode : Bool) (choice : String) : List String :=
  let relations := descendants erdDescendants is_declared
  let do_drop := if safemode then choice == "yes" else true
  if do_drop then dropLoop relations else []

/-- Result of one access to the `heading` property: the mapping
returned, the cache (`self._heading`) afterwards, and how many
existence (`SHOW TABLES`) and metadata (`init_from_database`) queries
the access issued. -/
structure HeadingCall where
  result : List Attribute
  cached : List Attribute
  existenceQueries : Nat
  metadataQueries : Nat
deriving DecidableEq, Repr

/-- The `heading` property: `if not self._heading and self.is_declared:
self._heading.init_from_database(...)`, then `return self._heading`.
The `and` short-circuits: a non-empty cache issues no query at all;
an empty cache always pays one existence query, plus one metadata query
when the table exists. -/
def headingProperty (tableExists : Bool) (dbHeading cachedHeading : List Attribute) :
    HeadingCall :=
  if cachedHeading.isEmpty then
    if tableExists then ⟨dbHeading, dbHeading, 1, 1⟩
    else ⟨cachedHeading, cachedHeading, 1, 0⟩
  else ⟨cachedHeading, cachedHeading, 0, 0⟩

/-- The row fetched by the table-status query (the two columns
`size_on_disk` reads). -/
structure TableStatus where
  data_length : Nat
  index_length : Nat
deriving DecidableEq, Repr

/-- The single statement `size_on_disk` issues. -/
def sizeOnDiskQuery (database table_name : String) : String :=
  "SHOW TABLE STATUS FROM `" ++ database ++ "` WHERE NAME=\"" ++ table_name ++ "\""

/-- The statements one `size_on_disk()` call executes. -/
def sizeOnDiskQueries (database table_name : String) : List String :=
  [sizeOnDiskQuery database table_name]

/-- `Relation.size_on_disk`:
`(ret['Data_length'] + ret['Index_length'])/1024**2` — note the code
divides by `1024 ** 2`, not `1024 ** 3`. -/
def size_on_disk (ret : TableStatus) : ℚ :=
  ((ret.data_length : ℚ) + (ret.index_length : ℚ)) / 1024 ^ 2

/-- Modelled from the spec: the conversion §4.6 describes — the summed
byte counts divided by 1024³ (gibibytes). -/
def size_on_disk_spec (ret : TableStatus) : ℚ :=
  ((ret.data_length : ℚ) + (ret.index_length : ℚ)) / 1024 ^ 3

/-- `a` occurs strictly before `b` in the list `l`. -/
def occursBefore (l : List String) (a b : String) : Prop :=
  ∃ l₁ l₂ l₃, l = l₁ ++ a :: (l₂ ++ b :: l₃)

end DataJoint

namespace DataJoint

/-! Example fixtures used by the witness theorems. -/

/-- A three-attribute example heading (the `image` attribute is a blob). -/
def exHeading : Heading := [⟨"subject_id", false⟩, ⟨"species", false⟩, ⟨"image", true⟩]

/-- An example valid input record. -/
def exFields : List (String × Value) := [("subject_id", ⟨"7", []⟩), ("image", ⟨"arr", [1, 2, 3]⟩)]

/-- `exFields` with its two pairs in the opposite order. -/
def exFieldsReordered : List (String × Value) :=
  [("image", ⟨"arr", [1, 2, 3]⟩), ("subject_id", ⟨"7", []⟩)]

/-- An input record with a field name absent from `exHeading`. -/
def exBad : List (String × Value) := [("subject_id", ⟨"7", []⟩), ("bogus", ⟨"1", []⟩)]

/-! Helper lemmas shared by several claims. -/

/-- The `while relations: relations.pop().drop_quick()` loop visits the
list exactly in reverse. -/
theorem dropLoop_eq_reverse (l : List String) : dropLoop l = l.reverse := by
  match l with
  | [] => simp [dropLoop]
  | r :: rs =>
    rw [dropLoop]
    rw [dropLoop_eq_reverse ((r :: rs).dropLast)]
    conv_rhs => rw [← List.dropLast_append_getLast (List.cons_ne_nil r rs)]
    rw [List.reverse_append]
    simp
termination_by l.length
decreasing_by simp

/-- Reversing a list swaps relative order of any two occurrences. -/
theorem occursBefore_reverse {l : List String} {a b : String}
    (h : occursBefore l a b) : occursBefore l.reverse b a := by
  obtain ⟨l₁, l₂, l₃, rfl⟩ := h
  refine ⟨l₃.reverse, l₂.reverse, l₁.reverse, ?_⟩
  simp

/-- Key membership in an input record only depends on the record up to
permutation. -/
theorem containsKey_perm {f₁ f₂ : List (String × Value)} (h : f₁.Perm f₂) (name : String) :
    containsKey f₁ name = containsKey f₂ name := by
  rw [Bool.eq_iff_iff]
  simp only [containsKey, List.any_eq_true]
  exact ⟨fun ⟨p, hp, he⟩ => ⟨p, h.mem_iff.mp hp, he⟩, fun ⟨p, hp, he⟩ => ⟨p, h.mem_iff.mpr hp, he⟩⟩

/-- With duplicate-free keys (a mapping), `find?` on a key finds exactly
the pair holding that key. -/
theorem find?_key_eq_some_iff {f : List (String × Value)} (hnd : (f.map Prod.fst).Nodup)
    (k : String) (p : String × Value) :
    f.find? (fun q => q.fst == k) = some p ↔ p ∈ f ∧ p.fst = k := by
  induction f with
  | nil => simp
  | cons q t ih =>
    simp only [List.map_cons, List.nodup_cons, List.mem_map] at hnd
    by_cases h : q.fst = k
    · rw [List.find?_cons_of_pos _ (by simp [h])]
      constructor
      · intro hq
        rw [Option.some.injEq] at hq
        subst hq
        exact ⟨List.mem_cons_self _ _, h⟩
      · rintro ⟨hmem, hk⟩
        rcases List.mem_cons.mp hmem with rfl | hmem
        · rfl
        · exact absurd ⟨p, hmem, by rw [hk, ← h]⟩ hnd.1
    · rw [List.find?_cons_of_neg _ (by simp [h])]
      rw [ih hnd.2]
      constructor
      · rintro ⟨hmem, hk⟩
        exact ⟨List.mem_cons_of_mem q hmem, hk⟩
      · rintro ⟨hmem, hk⟩
        rcases List.mem_cons.mp hmem with rfl | hmem
        · exact absurd hk h
        · exact ⟨hmem, hk⟩

/-- Looking a key up in a duplicate-free record is invariant under
permutation of the record's pairs. -/
theorem lookupField_perm {f₁ f₂ : List (String × Value)} (hperm : f₁.Perm f₂)
    (hnd : (f₁.map Prod.fst).Nodup) (k : String) :
    lookupField f₁ k = lookupField f₂ k := by
  have hnd₂ : (f₂.map Prod.fst).Nodup := ((hperm.map Prod.fst).nodup_iff).mp hnd
  unfold lookupField
  cases hfind : f₁.find? (fun q => q.fst == k) with
  | some p =>
    have hp := (find?_key_eq_some_iff hnd k p).mp hfind
    have h2 : f₂.find? (fun q => q.fst == k) = some p :=
      (find?_key_eq_some_iff hnd₂ k p).mpr ⟨hperm.mem_iff.mp hp.1, hp.2⟩
    rw [h2]
  | none =>
    have h1 := List.find?_eq_none.mp hfind
    have h2 : f₂.find? (fun q => q.fst == k) = none :=
      List.find?_eq_none.mpr (fun x hx => h1 x (hperm.mem_iff.mpr hx))
    rw [h2]

/-- When every input field name is in the Heading, the validation loop
finds no offender. -/
theorem findUnknown_eq_none {heading : Heading} {fields : List (String × Value)}
    (hvalid : ∀ p ∈ fields, headingContains heading p.fst = true) :
    findUnknown heading (fields.map Prod.fst) = none := by
  unfold findUnknown
  rw [List.find?_eq_none]
  intro x hx
  obtain ⟨p, hp, rfl⟩ := List.mem_map.mp hx
  simp [hvalid p hp]

end DataJoint

namespace DataJoint

/-- Claim C1 (code bug): `size_on_disk` issues one table-status query,
but converts the summed byte counts with `/1024**2` (mebibytes), not
`/1024**3` (gibibytes) as its own docstring and the spec state: on a
table of exactly 1 GiB it returns 1024, where the documented behavior
gives 1. -/
theorem size_on_disk_uses_mebibyte_divisor :
    sizeOnDiskQueries "db" "subject" = [sizeOnDiskQuery "db" "subject"] ∧
    size_on_disk ⟨1073741824, 0⟩ = 1024 ∧
    size_on_disk_spec ⟨1073741824, 0⟩ = 1 ∧
    size_on_disk ⟨1073741824, 0⟩ ≠ size_on_disk_spec ⟨1073741824, 0⟩ := by
  refine ⟨rfl, ?_, ?_, ?_⟩ <;> norm_num [size_on_disk, size_on_disk_spec]

/-- Claim C8: `delete()` deletes immediately (delegating to
`delete_quick`, without consulting the prompt) when safe-mode is off;
with safe-mode on it prompts first, deleting on "yes" and issuing no
query at all when the user declines. -/
theorem delete_safemode_gating (choice fc wc : String) (h : choice ≠ "yes") :
    delete false choice fc wc = ⟨delete_quick fc wc, false⟩ ∧
    delete true "yes" fc wc = ⟨delete_quick fc wc, true⟩ ∧
    delete true choice fc wc = ⟨[], true⟩ ∧
    delete_quick fc wc = ["DELETE FROM " ++ fc ++ wc] := by
  refine ⟨rfl, rfl, ?_, rfl⟩
  simp [delete, h]

theorem delete_safemode_gating_witness :
    ("no" : String) ≠ "yes" ∧ delete true "no" "`db`.`t`" " WHERE TRUE" = ⟨[], true⟩ :=
  ⟨by decide, (delete_safemode_gating "no" "`db`.`t`" " WHERE TRUE" (by decide)).2.2.1⟩

/-- Claim C10: with `replace=True`, the `ignore_errors` flag has no
effect on the result of `insert` — the verb is REPLACE either way,
because the `replace` branch is tested first. -/
theorem insert_replace_overrides_ignore_errors (fc : String) (heading : Heading)
    (tup : InsertRecord) (ie₁ ie₂ : Bool) :
    insert fc heading tup ie₁ true = insert fc heading tup ie₂ true ∧
    insertVerb ie₁ true = "REPLACE" := by
  constructor
  · cases tup <;> rfl
  · rfl

/-- Claim C2: an input record (mapping or structured row) holding a
field name absent from the Heading makes `insert` raise
`KeyError('<field> is not in the attribute list')` — the spec's
UnknownAttribute error — and execute zero statements. -/
theorem insert_unknown_field_rejected (fc : String) (heading : Heading)
    (fields : List (String × Value)) (ie rp : Bool) (f : String)
    (hf : f ∈ fields.map Prod.fst) (hunk : headingContains heading f = false) :
    (∃ g, g ∈ fields.map Prod.fst ∧ headingContains heading g = false ∧
      insert fc heading (.mapping fields) ie rp =
        .error (.keyError (g ++ " is not in the attribute list")) ∧
      insert fc heading (.npvoid fields) ie rp =
        .error (.keyError (g ++ " is not in the attribute list"))) ∧
    insertExecuted fc heading (.mapping fields) ie rp = [] ∧
    insertExecuted fc heading (.npvoid fields) ie rp = [] := by
  obtain ⟨g, hg⟩ : ∃ g, findUnknown heading (fields.map Prod.fst) = some g := by
    cases hcase : findUnknown heading (fields.map Prod.fst) with
    | some g => exact ⟨g, rfl⟩
    | none =>
      unfold findUnknown at hcase
      exact absurd (by simp [hunk] : (!headingContains heading f) = true)
        (by simpa using List.find?_eq_none.mp hcase f hf)
  have hg' : (fields.map Prod.fst).find? (fun x => !headingContains heading x) = some g := hg
  refine ⟨⟨g, List.mem_of_find?_eq_some hg', by simpa using List.find?_some hg', ?_, ?_⟩, ?_, ?_⟩ <;>
    simp [insert, insertRow, insertExecuted, hg]

theorem insert_unknown_field_rejected_witness :
    ("bogus" ∈ exBad.map Prod.fst ∧ headingContains exHeading "bogus" = false) ∧
    insertExecuted "`db`.`subject`" exHeading (.mapping exBad) false false = [] :=
  ⟨⟨by decide, by decide⟩,
    (insert_unknown_field_rejected "`db`.`subject`" exHeading exBad false false "bogus"
      (by decide) (by decide)).2.1⟩

/-- Claim C7: the `heading` property is lazy and caching — on an empty
cache with the table present it issues exactly one metadata query and
stores the result; with the table absent it returns the empty mapping
(no metadata query, no raise); any access finding a non-empty cache is
a pure hit issuing no queries of either kind. -/
theorem heading_lazy_cache (dbHeading : List Attribute) (hne : dbHeading ≠ []) :
    (headingProperty true dbHeading []).metadataQueries = 1 ∧
    (headingProperty true dbHeading []).result = dbHeading ∧
    (headingProperty true dbHeading []).cached = dbHeading ∧
    (∀ (a : Attribute) (t : List Attribute) (tExists : Bool) (dbH : List Attribute),
      headingProperty tExists dbH (a :: t) = ⟨a :: t, a :: t, 0, 0⟩) ∧
    headingProperty true dbHeading ((headingProperty true dbHeading []).cached) =
      ⟨dbHeading, dbHeading, 0, 0⟩ ∧
    headingProperty false dbHeading [] = ⟨[], [], 1, 0⟩ := by
  obtain ⟨a, t, rfl⟩ := List.exists_cons_of_ne_nil hne
  exact ⟨rfl, rfl, rfl, fun _ _ _ _ => rfl, rfl, rfl⟩

theorem heading_lazy_cache_witness :
    ([⟨"subject_id", false⟩] : List Attribute) ≠ [] ∧
    (headingProperty true [⟨"subject_id", false⟩] []).metadataQueries = 1 ∧
    headingProperty true [⟨"subject_id", false⟩]
        ((headingProperty true [⟨"subject_id", false⟩] []).cached) =
      ⟨[⟨"subject_id", false⟩], [⟨"subject_id", false⟩], 0, 0⟩ :=
  ⟨by decide, (heading_lazy_cache [⟨"subject_id", false⟩] (by decide)).1,
    (heading_lazy_cache [⟨"subject_id", false⟩] (by decide)).2.2.2.2.1⟩

end DataJoint

namespace DataJoint

/-- Claim C3: with safe-mode off or confirmation given, `drop()` invokes
`drop_quick` on the currently declared descendants in exactly the
reverse of the `descendants` order; hence when that order is parent
first (topological), every referencing table is dropped strictly before
the table it references. -/
theorem drop_reverse_descendants (erd : List String) (is_declared : String → Bool)
    (safemode : Bool) (choice : String) (refs : String → String → Prop)
    (hdo : safemode = false ∨ choice = "yes")
    (htopo : ∀ a b, refs a b → a ∈ descendants erd is_declared →
      b ∈ descendants erd is_declared → occursBefore (descendants erd is_declared) b a) :
    drop erd is_declared safemode choice = (descendants erd is_declared).reverse ∧
    ∀ a b, refs a b → a ∈ drop erd is_declared safemode choice →
      b ∈ drop erd is_declared safemode choice →
      occursBefore (drop erd is_declared safemode choice) a b := by
  have hdrop : drop erd is_declared safemode choice = dropLoop (descendants erd is_declared) := by
    rcases hdo with rfl | rfl
    · rfl
    · simp [drop]
  rw [hdrop, dropLoop_eq_reverse]
  refine ⟨rfl, ?_⟩
  intro a b hr ha hb
  rw [List.mem_reverse] at ha hb
  exact occursBefore_reverse (htopo a b hr ha hb)

theorem drop_reverse_descendants_witness :
    drop ["p", "c1", "c2"] (fun _ => true) true "yes" = ["c2", "c1", "p"] := by
  have h := drop_reverse_descendants ["p", "c1", "c2"] (fun _ => true) true "yes"
    (fun a b => (a, b) ∈ [("c1", "p"), ("c2", "p")]) (Or.inr rfl) ?htopo
  · exact h.1.trans (by decide)
  case htopo =>
    intro a b hab ha hb
    simp only [List.mem_cons, List.not_mem_nil, or_false, Prod.mk.injEq] at hab
    rcases hab with ⟨rfl, rfl⟩ | ⟨rfl, rfl⟩
    · exact ⟨[], [], ["c2"], rfl⟩
    · exact ⟨[], ["c1"], [], rfl⟩

/-- Claim C4: the column order of the generated statement is the
Heading's iteration order restricted to the fields present in the
input; permuting a duplicate-free valid input record leaves the entire
generated statement unchanged. -/
theorem insert_column_order_from_heading (fc : String) (heading : Heading)
    (fields₁ fields₂ : List (String × Value)) (ie rp : Bool)
    (hperm : fields₁.Perm fields₂)
    (hnd : (fields₁.map Prod.fst).Nodup)
    (hvalid : ∀ p ∈ fields₁, headingContains heading p.fst = true) :
    insert fc heading (.mapping fields₁) ie rp = insert fc heading (.mapping fields₂) ie rp ∧
    insert fc heading (.npvoid fields₁) ie rp = insert fc heading (.npvoid fields₂) ie rp ∧
    presentAttrs heading fields₁ = heading.filter (fun a => containsKey fields₁ a.name) ∧
    ((presentAttrs heading fields₁).map (fun a => a.name)).Sublist
      (heading.map (fun a => a.name)) := by
  have hv₂ : ∀ p ∈ fields₂, headingContains heading p.fst = true :=
    fun p hp => hvalid p (hperm.mem_iff.mpr hp)
  have hu₁ := findUnknown_eq_none hvalid
  have hu₂ := findUnknown_eq_none hv₂
  have hpres : presentAttrs heading fields₁ = presentAttrs heading fields₂ :=
    List.filter_congr (fun a _ => by rw [containsKey_perm hperm])
  have hval : value_list heading fields₁ = value_list heading fields₂ := by
    rw [value_list, value_list, hpres]
    exact congrArg _ (List.map_congr_left (fun a _ => by rw [lookupField_perm hperm hnd]))
  have hargs : insert_args heading fields₁ = insert_args heading fields₂ := by
    rw [insert_args, insert_args,
      List.filter_congr (fun a _ => by rw [containsKey_perm hperm])]
    exact List.map_congr_left (fun a _ => by rw [lookupField_perm hperm hnd])
  have hattr : attribute_list heading fields₁ = attribute_list heading fields₂ := by
    rw [attribute_list, attribute_list, hpres]
  have hrow : insertRow fc heading fields₁ ie rp = insertRow fc heading fields₂ ie rp := by
    rw [insertRow, insertRow, hu₁, hu₂, insertSQL, insertSQL, hval, hattr, hargs]
  exact ⟨hrow, hrow, rfl, (List.filter_sublist heading).map (fun a => a.name)⟩

theorem insert_column_order_from_heading_witness :
    exFields.Perm exFieldsReordered ∧
    insert "`db`.`subject`" exHeading (.mapping exFields) false false =
      insert "`db`.`subject`" exHeading (.mapping exFieldsReordered) false false ∧
    insert "`db`.`subject`" exHeading (.mapping exFields) false false =
      Except.ok ⟨"INSERT INTO `db`.`subject` (`subject_id`,`image`) VALUES (7,%s)",
        [[1, 2, 3]]⟩ :=
  ⟨by decide,
    (insert_column_order_from_heading "`db`.`subject`" exHeading exFields exFieldsReordered
      false false (by decide) (by decide) (by decide)).1,
    by rfl⟩

/-- Claim C5: in the generated statement each blob field contributes the
placeholder `%s` and its pack-encoded payload to the argument sequence,
each non-blob field is interpolated as its literal representation, and
the arguments are exactly the blob fields in Heading order. -/
theorem insert_blob_partition (fc : String) (heading : Heading)
    (fields : List (String × Value)) (ie rp : Bool)
    (hvalid : ∀ p ∈ fields, headingContains heading p.fst = true) :
    ∃ q, insert fc heading (.mapping fields) ie rp = Except.ok q ∧
      insert fc heading (.npvoid fields) ie rp = Except.ok q ∧
      q.args = ((presentAttrs heading fields).filter (fun a => a.is_blob)).map
        (fun a => (lookupField fields a.name).packed) ∧
      q.sql = insertVerb ie rp ++ " INTO " ++ fc ++ " (" ++ attribute_list heading fields ++
        ") VALUES (" ++ String.intercalate ","
          ((presentAttrs heading fields).map
            (fun a => if a.is_blob then "%s" else (lookupField fields a.name).reprStr)) ++
        ")" := by
  have hu := findUnknown_eq_none hvalid
  have htok : (presentAttrs heading fields).map
      (fun a => if !a.is_blob then (lookupField fields a.name).reprStr else "%s") =
      (presentAttrs heading fields).map
        (fun a => if a.is_blob then "%s" else (lookupField fields a.name).reprStr) :=
    List.map_congr_left (fun a _ => by cases h : a.is_blob <;> simp [h])
  refine ⟨⟨insertSQL fc heading fields ie rp, insert_args heading fields⟩, ?_, ?_, ?_, ?_⟩
  · simp [insert, insertRow, hu]
  · simp [insert, insertRow, hu]
  · show insert_args heading fields = _
    rw [insert_args, presentAttrs, List.filter_filter]
    exact congrArg _ (List.filter_congr (fun a _ => by rw [Bool.and_comm]))
  · show insertSQL fc heading fields ie rp = _
    rw [insertSQL, value_list, htok]

theorem insert_blob_partition_witness :
    ∃ q, insert "`db`.`subject`" exHeading (.mapping exFields) false false = Except.ok q ∧
      insert "`db`.`subject`" exHeading (.npvoid exFields) false false = Except.ok q ∧
      q.args = ((presentAttrs exHeading exFields).filter (fun a => a.is_blob)).map
        (fun a => (lookupField exFields a.name).packed) ∧
      q.sql = insertVerb false false ++ " INTO " ++ "`db`.`subject`" ++ " (" ++
        attribute_list exHeading exFields ++ ") VALUES (" ++ String.intercalate ","
          ((presentAttrs exHeading exFields).map
            (fun a => if a.is_blob then "%s" else (lookupField exFields a.name).reprStr)) ++
        ")" :=
  insert_blob_partition "`db`.`subject`" exHeading exFields false false (by decide)

/-- Claim C6: a valid `insert` call executes exactly one statement, whose
verb is REPLACE when `replace` is set, INSERT IGNORE when only
`ignore_errors` is set, and plain INSERT otherwise. -/
theorem insert_single_statement_and_verb (fc : String) (heading : Heading)
    (fields : List (String × Value)) (ie rp : Bool)
    (hvalid : ∀ p ∈ fields, headingContains heading p.fst = true) :
    (insertExecuted fc heading (.mapping fields) ie rp).length = 1 ∧
    (insertExecuted fc heading (.npvoid fields) ie rp).length = 1 ∧
    insertExecuted fc heading (.mapping fields) ie rp =
      [⟨insertSQL fc heading fields ie rp, insert_args heading fields⟩] ∧
    insertSQL fc heading fields ie rp =
      (if rp then "REPLACE" else if ie then "INSERT IGNORE" else "INSERT") ++
        " INTO " ++ fc ++ " (" ++ attribute_list heading fields ++ ") VALUES (" ++
        value_list heading fields ++ ")" ∧
    insertVerb ie true = "REPLACE" ∧
    insertVerb true false = "INSERT IGNORE" ∧
    insertVerb false false = "INSERT" := by
  have hu := findUnknown_eq_none hvalid
  refine ⟨?_, ?_, ?_, rfl, rfl, rfl, rfl⟩ <;> simp [insertExecuted, insert, insertRow, hu]

theorem insert_single_statement_and_verb_witness :
    (insertExecuted "`db`.`subject`" exHeading (.mapping exFields) true false).length = 1 ∧
    insertExecuted "`db`.`subject`" exHeading (.mapping exFields) true false =
      [⟨insertSQL "`db`.`subject`" exHeading exFields true false,
        insert_args exHeading exFields⟩] :=
  ⟨(insert_single_statement_and_verb "`db`.`subject`" exHeading exFields true false
      (by decide)).1,
    (insert_single_statement_and_verb "`db`.`subject`" exHeading exFields true false
      (by decide)).2.2.1⟩

/-- Claim C9: `iter_insert` (and `batch_insert`, which delegates to it)
over N records that all insert successfully executes exactly the N
single-row statements, in sequence order, each single-row call
contributing exactly one statement — never a multi-row statement. -/
theorem iter_insert_n_single_statements (fc : String) (heading : Heading)
    (rows : List InsertRecord) (ie rp : Bool)
    (hok : ∀ row ∈ rows, ∃ q, insert fc heading row ie rp = Except.ok q) :
    iter_insert fc heading rows ie rp =
      (rows.map (fun row => okQuery (insert fc heading row ie rp)), none) ∧
    (iter_insert fc heading rows ie rp).fst.length = rows.length ∧
    (∀ row ∈ rows, insertExecuted fc heading row ie rp =
      [okQuery (insert fc heading row ie rp)]) ∧
    batch_insert fc heading rows ie rp = iter_insert fc heading rows ie rp := by
  have main : ∀ rs : List InsertRecord,
      (∀ row ∈ rs, ∃ q, insert fc heading row ie rp = Except.ok q) →
      iter_insert fc heading rs ie rp =
        (rs.map (fun row => okQuery (insert fc heading row ie rp)), none) := by
    intro rs
    induction rs with
    | nil => intro _; rfl
    | cons row rest ih =>
      intro hok2
      obtain ⟨q, hq⟩ := hok2 row (List.mem_cons_self _ _)
      simp only [iter_insert, hq, List.map_cons, okQuery,
        ih (fun r hr => hok2 r (List.mem_cons_of_mem _ hr))]
  refine ⟨main rows hok, ?_, ?_, rfl⟩
  · rw [main rows hok]
    simp
  · intro row hr
    obtain ⟨q, hq⟩ := hok row hr
    simp [insertExecuted, hq, okQuery]

theorem iter_insert_n_single_statements_witness :
    (∀ row ∈ [InsertRecord.mapping exFields, InsertRecord.mapping exFieldsReordered],
      ∃ q, insert "`db`.`subject`" exHeading row false false = Except.ok q) ∧
    (iter_insert "`db`.`subject`" exHeading
      [InsertRecord.mapping exFields, InsertRecord.mapping exFieldsReordered]
      false false).fst.length = 2 := by
  have hok : ∀ row ∈ [InsertRecord.mapping exFields, InsertRecord.mapping exFieldsReordered],
      ∃ q, insert "`db`.`subject`" exHeading row false false = Except.ok q := by
    intro row hr
    simp only [List.mem_cons, List.not_mem_nil, or_false] at hr
    rcases hr with rfl | rfl <;> exact ⟨_, rfl⟩
  exact ⟨hok, (iter_insert_n_single_statements "`db`.`subject`" exHeading
    [InsertRecord.mapping exFields, InsertRecord.mapping exFieldsReordered]
    false false hok).2.1⟩

end DataJoint
